import Mathlib

set_option maxRecDepth 8192

/-!
Shallow embedding of the proof-verification pipeline in
src/prover_v2/verification.py.

Python text is modelled as a list of characters; Python string methods
(split, rsplit, strip, lstrip, substring containment) are embedded as
occurrence-based list functions with the same semantics.  The two regular
expressions used by the source contain no backtracking-relevant features
beyond a greedy whitespace run whose end position is forced, so they are
embedded as direct scans.
-/

/-- Python text, as a list of characters. -/
abbrev Str := List Char

/-- The characters Python treats as whitespace in str.strip / str.lstrip and
in the regex class backslash-s, restricted to the ASCII range (space, tab,
newline, carriage return, vertical tab, form feed). -/
def pyIsSpace (c : Char) : Bool :=
  c = ' ' || c = '\t' || c = '\n' || c = '\r' || c = Char.ofNat 11 || c = Char.ofNat 12

/-- Python str.lstrip(). -/
def pyLStrip (s : Str) : Str := s.dropWhile pyIsSpace

/-- Python str.strip(). -/
def pyStrip (s : Str) : Str := ((s.dropWhile pyIsSpace).reverse.dropWhile pyIsSpace).reverse

/-- The pattern occurs in s starting at position i. -/
def occursAt (pat s : Str) (i : Nat) : Bool := pat.isPrefixOf (s.drop i)

/-- Position of the first occurrence of pat in s (Python str.find when it
succeeds). -/
def firstOcc (pat s : Str) : Option Nat :=
  (List.range (s.length + 1)).find? (occursAt pat s)

/-- Position of the last occurrence of pat in s. -/
def lastOcc (pat s : Str) : Option Nat :=
  ((List.range (s.length + 1)).filter (occursAt pat s)).getLast?

/-- Python substring containment, pat in s. -/
def containsSub (pat s : Str) : Bool := (firstOcc pat s).isSome

/-- Text after the first occurrence of pat: s.split(pat, 1)[1] when pat
occurs (all uses in the source are guarded by a containment check). -/
def afterFirstD (pat s : Str) : Str :=
  match firstOcc pat s with
  | some i => s.drop (i + pat.length)
  | none => s

/-- Text after the last occurrence of pat: s.rsplit(pat, 1)[1], equally
s.split(pat)[-1], when pat occurs (uses are guarded). -/
def afterLastD (pat s : Str) : Str :=
  match lastOcc pat s with
  | some i => s.drop (i + pat.length)
  | none => s

/-- Text before the first occurrence of pat: s.split(pat)[0]; the whole of s
when pat does not occur. -/
def beforeFirstD (pat s : Str) : Str :=
  match firstOcc pat s with
  | some i => s.take i
  | none => s

/-- The designated section marker checked first by the extractor
(verification.py line 17). -/
def sectionMarker : Str := "### Complete Lean 4 Proof\n\n".data

/-- Fence tag of the strict dialect. -/
def strictTag : Str := "```lean4".data

/-- Fence tag of the loose dialect. -/
def looseTag : Str := "```lean".data

/-- Closing fence. -/
def fenceTick : Str := "```".data

/-- Fenced-excerpt selection, verification.py lines 16-34: first the section
marker followed immediately (after lstrip) by a strict fence; if that yields
nothing, the last strict fence anywhere; if the strict tag is absent, the
last loose fence; otherwise nothing. -/
def selectExcerpt (t : Str) : Str :=
  let e1 : Str :=
    if containsSub sectionMarker t then
      let a := pyLStrip (afterLastD sectionMarker t)
      if strictTag.isPrefixOf a then
        pyStrip (beforeFirstD fenceTick (afterFirstD strictTag a))
      else []
    else []
  if e1 ≠ [] then e1
  else if containsSub strictTag t then
    pyStrip (beforeFirstD fenceTick (afterLastD strictTag t))
  else if containsSub looseTag t then
    pyStrip (beforeFirstD fenceTick (afterLastD looseTag t))
  else []

/-- End of the whitespace run starting at position k. -/
def wsRunEnd (s : Str) (k : Nat) : Nat := k + ((s.drop k).takeWhile pyIsSpace).length

/-- End position of a match of the placeholder regex (assignment operator,
optional whitespace, the incomplete-proof token) starting at i, if it
matches there.  The greedy whitespace run is forced: the token's first
character is not whitespace, so the only candidate end of the run is its
maximal end. -/
def placeholderEnd (s : Str) (i : Nat) : Option Nat :=
  if occursAt (":=".data) s i then
    let j := wsRunEnd s (i + 2)
    if occursAt ("sorry".data) s j then some (j + 5) else none
  else none

/-- Spans of finditer of the placeholder regex over the header,
verification.py lines 45-49.  Matches of this pattern cannot overlap (no
character strictly inside a match can start one), so the non-overlapping
scan finds exactly the set of match positions, in increasing order. -/
def placeholderSpans (s : Str) : List (Nat × Nat) :=
  (List.range (s.length + 1)).filterMap (fun i => (placeholderEnd s i).map (fun e => (i, e)))

/-- Message of the ValueError raised at verification.py line 60
(apostrophes elided). -/
def valueErrorMsg : Str :=
  "No := sorry pattern found in header to replace with proof body".data

/-- A response is either a single text or an ordered list of turns
(verification.py line 11 dispatches on isinstance(response, list)). -/
inductive PyResponse where
  | text (s : Str)
  | turns (l : List Str)
deriving DecidableEq

/-- Text selected for scanning, verification.py lines 11-14: the last
element of a non-empty list (empty text for an empty list), the response
itself otherwise. -/
def responseText : PyResponse → Str
  | .text s => s
  | .turns l => (l.getLast?).getD []

/-- Body of the extractor once the text to scan is fixed, verification.py
lines 16-60: select a fenced excerpt; empty excerpt yields empty output;
an excerpt without an assignment operator yields the stripped header;
otherwise the text after the first assignment operator is the proof body,
spliced over the last placeholder span, accepted only when the header has
exactly one placeholder match and a ValueError otherwise. -/
def scanText (t header : Str) : Except Str Str :=
  let extracted := selectExcerpt t
  if extracted = [] then .ok []
  else
    match firstOcc (":=".data) extracted with
    | none => .ok (pyStrip header)
    | some i =>
      let proof_body := pyStrip ((extracted.drop (i + 2)).dropWhile pyIsSpace)
      let spans := placeholderSpans header
      let new_code : Str :=
        match spans.getLast? with
        | some se => header.take se.1 ++ ":= ".data ++ proof_body ++ header.drop se.2
        | none => header
      if spans.length = 1 then .ok (pyStrip new_code) else .error valueErrorMsg

/-- extract_lean_code, verification.py lines 9-60. -/
def extract_lean_code (response : PyResponse) (header : Str) : Except Str Str :=
  scanText (responseText response) header

/-- Input entry fields consumed by the pipeline (verification.py lines
125-132): optional idx, formal_statement (the skeleton header), response. -/
structure Entry where
  idx : Option Int
  formal_statement : Str
  response : PyResponse
deriving DecidableEq

/-- Parse result of one input line: json.loads either fails (the line is
skipped, verification.py lines 124-127) or yields an entry. -/
inductive LineParse where
  | malformed
  | ok (e : Entry)
deriving DecidableEq

/-- Verification outcome returned by the external service for one job,
restricted to the fields the pipeline reads.  The errors, warnings and
sorries lists only ever enter the records through their lengths, so they
are carried as counts. -/
structure Output where
  pass : Bool
  complete : Bool
  system_errors : Str
  errors : Nat
  warnings : Nat
  sorries : Nat
  verify_time : Nat
deriving DecidableEq

/-- Status taxonomy of verification.py lines 147-167. -/
inductive VStatus where
  | NO_CODE_FOUND
  | SYSTEM_ERROR
  | COMPLETE
  | PASS_WITH_ISSUES
  | FAIL
deriving DecidableEq

/-- Status classification, verification.py lines 164-167: a present
(non-empty) infrastructure-error text wins, then the complete flag, then
the pass flag, then FAIL. -/
def classifyStatus (o : Output) : VStatus :=
  if o.system_errors ≠ [] then .SYSTEM_ERROR
  else if o.complete then .COMPLETE
  else if o.pass then .PASS_WITH_ISSUES
  else .FAIL

/-- One output record, verification.py lines 146-152 and 169-183, restricted
to the fields the claims mention. -/
structure ResultRecord where
  idx : Int
  formal_statement : Str
  response : PyResponse
  verified_lean_code : Str
  verification_pass : Bool
  verification_complete : Bool
  verification_status : VStatus
  errors : Nat
  warnings : Nat
  sorries : Nat
  verify_time : Nat
deriving DecidableEq

/-- Placeholder record synthesized without any submission when no code was
extracted, verification.py lines 146-152. -/
def noCodeRecord (e : Entry) (i : Nat) : ResultRecord :=
  { idx := e.idx.getD i, formal_statement := e.formal_statement, response := e.response,
    verified_lean_code := [], verification_pass := false, verification_complete := false,
    verification_status := .NO_CODE_FOUND, errors := 0, warnings := 0, sorries := 0,
    verify_time := 0 }

/-- Record built from a service outcome, verification.py lines 169-183. -/
def verifiedRecord (e : Entry) (i : Nat) (code : Str) (o : Output) : ResultRecord :=
  { idx := e.idx.getD i, formal_statement := e.formal_statement, response := e.response,
    verified_lean_code := code, verification_pass := o.pass,
    verification_complete := o.complete, verification_status := classifyStatus o,
    errors := o.errors, warnings := o.warnings, sorries := o.sorries,
    verify_time := o.verify_time }

/-- External service model, at the interface the orchestrator consumes:
request handles are issued sequentially on submission; the one blocking
retrieval call either raises or returns one outcome per handle,
positionally. -/
structure Sched where
  outcomeOf : Nat → Output
  awaitErr : Option Str

/-- get_all_request_outputs, at the interface: raises awaitErr when set,
otherwise returns the outcomes of the given handles in their order. -/
def Sched.awaitAll (s : Sched) (ids : List Nat) : Except Str (List Output) :=
  match s.awaitErr with
  | some e => .error e
  | none => .ok (ids.map s.outcomeOf)

/-- Observable events on the service resource. -/
inductive SEvent where
  | submit (id : Nat)
  | awaitCall
  | close
deriving DecidableEq

/-- Mutable state of the submission loop, verification.py lines 120-121 and
111: parsed entries, retained (handle, line index, code) triples, records
accumulated so far, and the next fresh handle. -/
structure SubmitState where
  entries : List Entry
  request_ids : List (Nat × Nat × Str)
  results : List ResultRecord
  nextId : Nat
deriving DecidableEq

/-- One iteration of the submission loop, verification.py lines 123-152:
a malformed line is skipped; otherwise the entry is appended, extraction
runs (possibly raising), a non-empty stripped code is submitted and its
triple retained, and an empty one yields an immediate placeholder record. -/
def submitStep (st : SubmitState) (i : Nat) (lp : LineParse) :
    List SEvent × Except Str SubmitState :=
  match lp with
  | .malformed => ([], .ok st)
  | .ok entry =>
    let st1 : SubmitState := { st with entries := st.entries ++ [entry] }
    match extract_lean_code entry.response entry.formal_statement with
    | .error e => ([], .error e)
    | .ok lean_code =>
      if pyStrip lean_code ≠ [] then
        ([.submit st1.nextId],
         .ok { st1 with request_ids := st1.request_ids ++ [(st1.nextId, i, lean_code)],
                        nextId := st1.nextId + 1 })
      else
        ([], .ok { st1 with results := st1.results ++ [noCodeRecord entry i] })

/-- The submission loop over all (possibly truncated) lines, with the
enumerate index. -/
def submitLoop : List LineParse → Nat → SubmitState → List SEvent × Except Str SubmitState
  | [], _, st => ([], .ok st)
  | lp :: rest, i, st =>
    match submitStep st i lp with
    | (ev, .error e) => (ev, .error e)
    | (ev, .ok st1) =>
      match submitLoop rest (i + 1) st1 with
      | (ev1, r) => (ev ++ ev1, r)

/-- The collection loop, verification.py lines 157-183: each retained triple
is zipped with its outcome and looked up in the parsed-entries list at the
retained line index — an out-of-range index raises IndexError. -/
def collectLoop (entries : List Entry) :
    List ((Nat × Nat × Str) × Output) → Except Str (List ResultRecord)
  | [] => .ok []
  | (t, o) :: rest =>
    match entries.get? t.2.1 with
    | none => .error "list index out of range".data
    | some e => (collectLoop entries rest).map (verifiedRecord e t.2.1 t.2.2 o :: ·)

/-- The retrieval phase, verification.py lines 154-183: when any requests
were submitted, one blocking call retrieves all outcomes and the collection
loop appends the verified records after the placeholder records. -/
def awaitPhase (sched : Sched) (st : SubmitState) :
    List SEvent × Except Str (List ResultRecord) :=
  if st.request_ids ≠ [] then
    match sched.awaitAll (st.request_ids.map (·.1)) with
    | .error e => ([.awaitCall], .error e)
    | .ok outputs =>
      ([.awaitCall],
       (collectLoop st.entries (st.request_ids.zip outputs)).map (st.results ++ ·))
  else ([], .ok st.results)

/-- Truncation of the line list by the optional entry cap, verification.py
line 117: the cap applies only when it is truthy, so None and 0 both leave
the list whole. -/
def selectLines (lines : List LineParse) (max_entries : Option Nat) : List LineParse :=
  match max_entries with
  | some m => if m ≠ 0 then lines.take m else lines
  | none => lines

deriving instance DecidableEq for Except

/-- Result of one batch run: the sequence of service-resource events and
either the record list or the propagated exception. -/
structure RunResult where
  trace : List SEvent
  result : Except Str (List ResultRecord)
deriving DecidableEq

/-- The batch body after the scheduler is acquired, verification.py lines
111-185: submission loop, then retrieval and collection, with the close in
the finally block appended on every path. -/
def processLines (sched : Sched) (lines : List LineParse) : RunResult :=
  match submitLoop lines 0 ⟨[], [], [], 0⟩ with
  | (ev1, .error e) => { trace := ev1 ++ [.close], result := .error e }
  | (ev1, .ok st) =>
    match awaitPhase sched st with
    | (ev2, r) => { trace := ev1 ++ ev2 ++ [.close], result := r }

/-- process_jsonl_file, verification.py lines 96-203, restricted to the
post-acquisition batch processing: the optional cap truncates the raw line
list, then the batch body runs under the try/finally. -/
def process_jsonl_file (sched : Sched) (lines : List LineParse)
    (max_entries : Option Nat) : RunResult :=
  processLines sched (selectLines lines max_entries)

/-- Content extracted by the marker rule, as the spec words it: the text
after the designated section marker, from the strict fence it opens to the
next closing fence, trimmed. -/
def rule1Content (t : Str) : Str :=
  pyStrip (beforeFirstD fenceTick (afterFirstD strictTag (pyLStrip (afterLastD sectionMarker t))))

/-- Condition of the marker rule, as the spec words it: the marker is
present and the text immediately after it opens a strict fence. -/
def rule1Applies (t : Str) : Bool :=
  containsSub sectionMarker t && strictTag.isPrefixOf (pyLStrip (afterLastD sectionMarker t))

/-- Content of the last fence with the given tag: everything between that
fence-open and the next fence-close, trimmed. -/
def lastFenceContent (tag t : Str) : Str :=
  pyStrip (beforeFirstD fenceTick (afterLastD tag t))

/-- Modelled from the claim text of the fence-selection rule: the three
rules committed to strictly by their conditions, in preference order. -/
def selectClaim (t : Str) : Str :=
  if rule1Applies t then rule1Content t
  else if containsSub strictTag t then lastFenceContent strictTag t
  else if containsSub looseTag t then lastFenceContent looseTag t
  else []

/-- The amended fence-selection rule: the marker rule is used only when the
excerpt it extracts is non-empty; an empty marker-rule excerpt falls
through to the later rules. -/
def selectAmended (t : Str) : Str :=
  if rule1Applies t ∧ rule1Content t ≠ [] then rule1Content t
  else if containsSub strictTag t then lastFenceContent strictTag t
  else if containsSub looseTag t then lastFenceContent looseTag t
  else []

/-- Modelled from the claim text of the turn-selection rule: the last
non-empty turn of the sequence. -/
def lastNonEmptyTurn (l : List Str) : Str :=
  ((l.filter (fun s => s ≠ [])).getLast?).getD []

/-- Expected placeholder records of a batch, by line index: one per entry
whose extracted code strips to empty, in input order. -/
def expPlaceholders : Nat → List (Entry × Str) → List ResultRecord
  | _, [] => []
  | i, p :: rest =>
    if pyStrip p.2 = [] then noCodeRecord p.1 i :: expPlaceholders (i + 1) rest
    else expPlaceholders (i + 1) rest

/-- Expected retained triples of a batch: one (handle, line index, code)
per entry with non-empty extracted code, handles issued consecutively. -/
def expTriples : Nat → Nat → List (Entry × Str) → List (Nat × Nat × Str)
  | _, _, [] => []
  | i, n, p :: rest =>
    if pyStrip p.2 = [] then expTriples (i + 1) n rest
    else (n, i, p.2) :: expTriples (i + 1) (n + 1) rest

/-- Expected submission events of a batch. -/
def expSubmits : Nat → List (Entry × Str) → List SEvent
  | _, [] => []
  | n, p :: rest =>
    if pyStrip p.2 = [] then expSubmits n rest
    else .submit n :: expSubmits (n + 1) rest

/-- Number of entries of a batch with non-empty extracted code. -/
def countCode : List (Entry × Str) → Nat
  | [] => 0
  | p :: rest => (if pyStrip p.2 = [] then 0 else 1) + countCode rest

/-- Expected verified records of a batch: one per entry with non-empty
extracted code, in input order, each built from its own entry, its own
line index, its own code, and the service outcome of its own handle. -/
def expVerified (f : Nat → Output) : Nat → Nat → List (Entry × Str) → List ResultRecord
  | _, _, [] => []
  | i, n, p :: rest =>
    if pyStrip p.2 = [] then expVerified f (i + 1) n rest
    else verifiedRecord p.1 i p.2 (f n) :: expVerified f (i + 1) (n + 1) rest

/-- A service outcome with the complete and pass flags set and no
infrastructure error. -/
def outputA : Output :=
  { pass := true, complete := true, system_errors := [], errors := 0, warnings := 0,
    sorries := 0, verify_time := 5 }

/-- An outcome carrying infrastructure-error text while the complete flag
is also set. -/
def outputSysErr : Output :=
  { pass := true, complete := true, system_errors := "Lean process timeout".data,
    errors := 0, warnings := 0, sorries := 0, verify_time := 7 }

/-- A service model that answers every handle with outputA and never
raises. -/
def schedA : Sched := { outcomeOf := fun _ => outputA, awaitErr := none }

/-- Entry whose response carries a strict fenced block with an assignment. -/
def entryCode : Entry :=
  { idx := none, formal_statement := "x := sorry".data,
    response := .text "```lean4\nfoo := bar\n```".data }

/-- Entry whose response carries no fenced block at all. -/
def entryNoCode : Entry :=
  { idx := none, formal_statement := "y := sorry".data,
    response := .text "no code here".data }

/-- The round-trip response of the claim: a strict fenced block holding the
completed theorem. -/
def respRoundTrip : Str := "```lean4\ntheorem t : P := by exact h\n```".data

/-- The round-trip skeleton as the claim states it, with the tactic-block
placeholder form. -/
def hdrRoundTrip : Str := "theorem t : P := by sorry".data

/-- The round-trip skeleton in the placeholder form the code actually
recognises. -/
def hdrRoundTripFixed : Str := "theorem t : P := sorry".data

/-- A first turn holding a strict fenced block, for the turn-selection
counterexample. -/
def turnWithCode : Str := "```lean4\nx := y\n```".data

/-- Header with a single placeholder for the turn-selection example. -/
def hdrOneHole : Str := "a := sorry".data

/-- Header with two placeholder occurrences. -/
def hdrTwoHoles : Str := "a := sorry\nb := sorry".data

/-- Header with no placeholder occurrence. -/
def hdrNoHole : Str := "a := b".data

/-- Response text on which the marker rule applies with an empty excerpt
while a later strict fence holds code: the text after the marker opens a
strict fence that closes immediately, and a second strict fence follows. -/
def tMarkerEmpty : Str :=
  "### Complete Lean 4 Proof\n\n```lean4```\n```lean4\nfoo := bar\n```".data

/-- Response carrying a loose fenced block without any assignment
operator. -/
def respNoAssign : PyResponse := .text "```lean\nfoo bar\n```".data

/-- The two-entry batch of the ordering counterexample, with their
extracted codes. -/
def codesPair : List (Entry × Str) := [(entryCode, "x := bar".data), (entryNoCode, [])]

theorem submitStep_no_close (st : SubmitState) (i : Nat) (lp : LineParse) :
    SEvent.close ∉ (submitStep st i lp).1 := by
  unfold submitStep
  cases lp with
  | malformed => simp
  | ok e =>
    cases hex : extract_lean_code e.response e.formal_statement with
    | error m => simp [hex]
    | ok c => by_cases hc : pyStrip c = [] <;> simp [hex, hc]

theorem submitLoop_no_close (l : List LineParse) : ∀ (i : Nat) (st : SubmitState),
    SEvent.close ∉ (submitLoop l i st).1 := by
  induction l with
  | nil => intro i st; simp [submitLoop]
  | cons lp rest ih =>
    intro i st
    have hstep := submitStep_no_close st i lp
    unfold submitLoop
    rcases h1 : submitStep st i lp with ⟨ev, r⟩
    rw [h1] at hstep
    cases r with
    | error e => simpa using hstep
    | ok st1 =>
      have hrest := ih (i + 1) st1
      rcases h2 : submitLoop rest (i + 1) st1 with ⟨ev1, r1⟩
      rw [h2] at hrest
      simp_all

theorem awaitPhase_no_close (sched : Sched) (st : SubmitState) :
    SEvent.close ∉ (awaitPhase sched st).1 := by
  unfold awaitPhase
  by_cases h : st.request_ids = []
  · simp [h]
  · cases haw : sched.awaitAll (st.request_ids.map (·.1)) with
    | error e => simp [h, haw]
    | ok outputs => simp [h, haw]

theorem processLines_eq_error (sched : Sched) (lines : List LineParse)
    (ev1 : List SEvent) (e : Str)
    (h1 : submitLoop lines 0 ⟨[], [], [], 0⟩ = (ev1, .error e)) :
    processLines sched lines = { trace := ev1 ++ [SEvent.close], result := .error e } := by
  unfold processLines
  rw [h1]

theorem processLines_eq_ok (sched : Sched) (lines : List LineParse)
    (ev1 ev2 : List SEvent) (st : SubmitState) (r2 : Except Str (List ResultRecord))
    (h1 : submitLoop lines 0 ⟨[], [], [], 0⟩ = (ev1, .ok st))
    (h2 : awaitPhase sched st = (ev2, r2)) :
    processLines sched lines = { trace := ev1 ++ ev2 ++ [SEvent.close], result := r2 } := by
  unfold processLines
  rw [h1]
  show (match awaitPhase sched st with
    | (ev2, r) => ({ trace := ev1 ++ ev2 ++ [SEvent.close], result := r } : RunResult)) = _
  rw [h2]

/-- Claim C9: on every batch run after the scheduler is acquired, the close call
of the finally block is observed exactly once and is the last event on the
service resource, whether the submission, retrieval and collection steps
complete normally or any of them raises. -/
theorem scheduler_released_exactly_once (sched : Sched) (lines : List LineParse)
    (cap : Option Nat) :
    (process_jsonl_file sched lines cap).trace.count SEvent.close = 1 ∧
    (process_jsonl_file sched lines cap).trace.getLast? = some SEvent.close := by
  unfold process_jsonl_file
  have hloopc := submitLoop_no_close (selectLines lines cap) 0 ⟨[], [], [], 0⟩
  rcases h1 : submitLoop (selectLines lines cap) 0 ⟨[], [], [], 0⟩ with ⟨ev1, r⟩
  rw [h1] at hloopc
  simp only at hloopc
  cases r with
  | error e =>
    rw [processLines_eq_error sched _ ev1 e h1]
    refine ⟨?_, by simp [List.getLast?_concat]⟩
    simp [List.count_append, List.count_eq_zero.mpr hloopc]
  | ok st =>
    have hawc := awaitPhase_no_close sched st
    rcases h2 : awaitPhase sched st with ⟨ev2, r2⟩
    rw [h2] at hawc
    simp only at hawc
    rw [processLines_eq_ok sched _ ev1 ev2 st r2 h1 h2]
    constructor
    · simp [List.count_append, List.count_eq_zero.mpr hloopc, List.count_eq_zero.mpr hawc]
    · rw [show ev1 ++ ev2 ++ [SEvent.close] = (ev1 ++ ev2) ++ [SEvent.close] by
        simp [List.append_assoc]]
      simp [List.getLast?_concat]

/-- Claim C10: a supplied entry cap of 0 is falsy at verification.py line 117, so
the whole batch is processed exactly as when the cap is absent. -/
theorem cap_zero_processes_all_lines (sched : Sched) (lines : List LineParse) :
    process_jsonl_file sched lines (some 0) = process_jsonl_file sched lines none := rfl

/-- Claim C5: status classification follows the strict precedence of
verification.py lines 164-167: present (non-empty) infrastructure-error
text yields SYSTEM_ERROR even when the complete flag is set; otherwise the
complete flag yields COMPLETE; otherwise the pass flag yields
PASS_WITH_ISSUES; otherwise FAIL. -/
theorem classify_precedence (o : Output) :
    (o.system_errors ≠ [] → classifyStatus o = .SYSTEM_ERROR) ∧
    (o.system_errors = [] → o.complete = true → classifyStatus o = .COMPLETE) ∧
    (o.system_errors = [] → o.complete = false → o.pass = true →
      classifyStatus o = .PASS_WITH_ISSUES) ∧
    (o.system_errors = [] → o.complete = false → o.pass = false →
      classifyStatus o = .FAIL) := by
  unfold classifyStatus
  refine ⟨?_, ?_, ?_, ?_⟩
  · intro h; simp [h]
  · intro h hc; simp [h, hc]
  · intro h hc hp; simp [h, hc, hp]
  · intro h hc hp; simp [h, hc, hp]

/-- Witness for C5 at an outcome with infrastructure-error text and the
complete flag both set: SYSTEM_ERROR wins over COMPLETE. -/
theorem classify_precedence_witness :
    outputSysErr.system_errors ≠ [] ∧ outputSysErr.complete = true ∧
    classifyStatus outputSysErr = .SYSTEM_ERROR :=
  ⟨by decide, by decide, (classify_precedence outputSysErr).1 (by decide)⟩

/-- Claim C2: whenever a non-empty excerpt containing an assignment operator is
extracted and the header has zero, or two or more, placeholder matches,
extraction ends in the ValueError of verification.py line 60 instead of
returning any spliced or unspliced code. -/
theorem extract_fatal_on_ambiguous_placeholder (resp : PyResponse) (header : Str)
    (hne : selectExcerpt (responseText resp) ≠ [])
    (i : Nat) (hi : firstOcc (":=".data) (selectExcerpt (responseText resp)) = some i)
    (hcount : (placeholderSpans header).length = 0 ∨
      2 ≤ (placeholderSpans header).length) :
    extract_lean_code resp header = .error valueErrorMsg := by
  unfold extract_lean_code scanText
  have hone : ¬ (placeholderSpans header).length = 1 := by
    rcases hcount with h | h <;> omega
  simp [hne, hi, hone]

/-- Witness for C2: a strict fenced block with an assignment against a
two-placeholder header raises, even though the last-occurrence splice is
computable. -/
theorem extract_fatal_witness :
    selectExcerpt (responseText (.text turnWithCode)) ≠ [] ∧
    2 ≤ (placeholderSpans hdrTwoHoles).length ∧
    extract_lean_code (.text turnWithCode) hdrTwoHoles = .error valueErrorMsg :=
  ⟨by decide, by decide,
   extract_fatal_on_ambiguous_placeholder (.text turnWithCode) hdrTwoHoles (by decide) 2
     (by decide) (Or.inr (by decide))⟩

/-- Claim C7: a non-empty extracted excerpt with no assignment operator makes
extraction return the stripped header itself, with no splice. -/
theorem extract_returns_header_without_assignment (resp : PyResponse) (header : Str)
    (hne : selectExcerpt (responseText resp) ≠ [])
    (hnone : firstOcc (":=".data) (selectExcerpt (responseText resp)) = none) :
    extract_lean_code resp header = .ok (pyStrip header) := by
  unfold extract_lean_code scanText
  simp [hne, hnone]

/-- Witness for C7: a loose fenced block without an assignment operator
returns the stripped header. -/
theorem extract_returns_header_witness :
    selectExcerpt (responseText respNoAssign) ≠ [] ∧
    firstOcc (":=".data) (selectExcerpt (responseText respNoAssign)) = none ∧
    extract_lean_code respNoAssign "  th  ".data = .ok ("th".data) :=
  ⟨by decide, by decide, by
    have h := extract_returns_header_without_assignment respNoAssign "  th  ".data
      (by decide) (by decide)
    simpa using h⟩

/-- Claim C1 counterexample: the skeleton of the claim separates the assignment
operator from the incomplete-proof token by a tactic keyword, so it has
zero placeholder matches and extraction raises the ValueError instead of
returning the splice. -/
theorem roundtrip_claim_counterexample :
    extract_lean_code (.text respRoundTrip) hdrRoundTrip = .error valueErrorMsg ∧
    extract_lean_code (.text respRoundTrip) hdrRoundTrip ≠
      .ok ("theorem t : P := by exact h".data) ∧
    (placeholderSpans hdrRoundTrip).length = 0 := by decide

/-- Claim C1 amended: with the skeleton in the placeholder form the code
recognises (the assignment operator directly followed by the token), the
strict fenced block round-trips to the completed theorem. -/
theorem roundtrip_amended :
    extract_lean_code (.text respRoundTrip) hdrRoundTripFixed =
      .ok ("theorem t : P := by exact h".data) ∧
    (placeholderSpans hdrRoundTripFixed).length = 1 := by decide

/-- Claim C3 counterexample: with a final empty turn the code scans that empty
last element and returns empty output, while scanning the last non-empty
turn would return the spliced code. -/
theorem last_turn_counterexample :
    extract_lean_code (.turns [turnWithCode, []]) hdrOneHole = .ok [] ∧
    lastNonEmptyTurn [turnWithCode, []] = turnWithCode ∧
    scanText turnWithCode hdrOneHole = .ok ("a := y".data) ∧
    (Except.ok [] : Except Str Str) ≠ .ok ("a := y".data) := by decide

/-- Claim C3 amended: the scanned text is the final element of a non-empty turn
sequence, whether or not it is empty; the empty sequence scans as empty
text; a non-sequence response scans as its own text. -/
theorem scans_final_turn (l : List Str) (s header : Str) (hl : l ≠ []) :
    extract_lean_code (.turns l) header = scanText (l.getLast hl) header ∧
    extract_lean_code (.turns []) header = scanText [] header ∧
    extract_lean_code (.text s) header = scanText s header := by
  refine ⟨?_, rfl, rfl⟩
  show scanText ((l.getLast?).getD []) header = scanText (l.getLast hl) header
  rw [List.getLast?_eq_getLast l hl]
  rfl

/-- Witness for C3 at a one-turn sequence. -/
theorem scans_final_turn_witness :
    ([turnWithCode] : List Str) ≠ [] ∧
    extract_lean_code (.turns [turnWithCode]) hdrOneHole =
      scanText ([turnWithCode].getLast (by decide)) hdrOneHole :=
  ⟨by decide, (scans_final_turn [turnWithCode] [] hdrOneHole (by decide)).1⟩

/-- Claim C6 counterexample: on a response where the section marker is followed by
an empty strict fence and a later strict fence holds code, the literal
three-rule preference commits to the marker rule and selects the empty
excerpt, while the code falls through to the last strict fence and selects
the code. -/
theorem fence_preference_counterexample :
    rule1Applies tMarkerEmpty = true ∧
    selectClaim tMarkerEmpty = [] ∧
    selectExcerpt tMarkerEmpty = "foo := bar".data ∧
    selectExcerpt tMarkerEmpty ≠ selectClaim tMarkerEmpty := by decide

/-- Claim C6 amended: selection follows the three-rule preference order with the
marker rule used only when its excerpt is non-empty; and an entry whose
extraction strips to empty yields exactly one placeholder record with
status NO_CODE_FOUND and elapsed time 0, with no submission and no
retrieval call on the service. -/
theorem fence_preference_amended (t : Str) (sched : Sched) (e : Entry) (c : Str)
    (hex : extract_lean_code e.response e.formal_statement = .ok c)
    (hempty : pyStrip c = []) :
    selectExcerpt t = selectAmended t ∧
    process_jsonl_file sched [.ok e] none =
      { trace := [SEvent.close], result := .ok [noCodeRecord e 0] } := by
  constructor
  · unfold selectExcerpt selectAmended rule1Applies rule1Content lastFenceContent
    by_cases h1 : containsSub sectionMarker t = true
    · by_cases h2 : strictTag.isPrefixOf (pyLStrip (afterLastD sectionMarker t)) = true
      · by_cases h3 : pyStrip (beforeFirstD fenceTick
            (afterFirstD strictTag (pyLStrip (afterLastD sectionMarker t)))) = []
        · simp [h1, h2, h3]
        · simp [h1, h2, h3]
      · simp [h1, h2]
    · simp [h1]
  · have hstep : submitLoop [LineParse.ok e] 0 ⟨[], [], [], 0⟩ =
        ([], .ok ⟨[e], [], [noCodeRecord e 0], 0⟩) := by
      simp [submitLoop, submitStep, hex, hempty]
    unfold process_jsonl_file selectLines
    rw [processLines_eq_ok sched _ [] [] ⟨[e], [], [noCodeRecord e 0], 0⟩
      (.ok [noCodeRecord e 0]) hstep (by simp [awaitPhase])]
    rfl

/-- Witness for C6 at an entry whose response has no fenced block at all. -/
theorem fence_preference_amended_witness :
    extract_lean_code entryNoCode.response entryNoCode.formal_statement = .ok [] ∧
    process_jsonl_file schedA [.ok entryNoCode] none =
      { trace := [SEvent.close], result := .ok [noCodeRecord entryNoCode 0] } :=
  ⟨by decide, (fence_preference_amended [] schedA entryNoCode [] (by decide) (by decide)).2⟩

/-- Claim C8 (code bug): with a malformed first line and a parseable second line
whose response carries code, the collection loop indexes the parsed-entries
list with the raw line index (verification.py line 158) and raises
IndexError, so the batch produces no records at all instead of one record
for the parseable line; without the malformed line the same entry yields
exactly its one record. -/
theorem malformed_line_breaks_collection :
    (process_jsonl_file schedA [.malformed, .ok entryCode] none).result =
      .error "list index out of range".data ∧
    (process_jsonl_file schedA [.ok entryCode] none).result =
      .ok [verifiedRecord entryCode 0 ("x := bar".data) outputA] := by decide

/-- Claim C4 counterexample: a code-bearing first entry and a codeless second
entry produce the placeholder record of the second entry before the
verified record of the first, so the result list is not in input-entry
order. -/
theorem result_order_counterexample :
    (process_jsonl_file schedA [.ok entryCode, .ok entryNoCode] none).result =
      .ok [noCodeRecord entryNoCode 1,
           verifiedRecord entryCode 0 ("x := bar".data) outputA] ∧
    (noCodeRecord entryNoCode 1).idx = 1 ∧
    (verifiedRecord entryCode 0 ("x := bar".data) outputA).idx = 0 := by decide

theorem submitLoop_characterization :
    ∀ (codes : List (Entry × Str)),
    (∀ p ∈ codes, extract_lean_code p.1.response p.1.formal_statement = .ok p.2) →
    ∀ (i : Nat) (st : SubmitState),
    submitLoop (codes.map (fun p => LineParse.ok p.1)) i st =
      (expSubmits st.nextId codes,
       .ok { entries := st.entries ++ codes.map (·.1),
             request_ids := st.request_ids ++ expTriples i st.nextId codes,
             results := st.results ++ expPlaceholders i codes,
             nextId := st.nextId + countCode codes }) := by
  intro codes
  induction codes with
  | nil =>
    intro _ i st
    simp [submitLoop, expSubmits, expTriples, expPlaceholders, countCode]
  | cons p rest ih =>
    intro hc i st
    have hp := hc p (List.mem_cons_self _ _)
    have hrest := fun q hq => hc q (List.mem_cons_of_mem _ hq)
    by_cases hstrip : pyStrip p.2 = []
    · have hstep : submitStep st i (LineParse.ok p.1) =
          ([], .ok ⟨st.entries ++ [p.1], st.request_ids,
            st.results ++ [noCodeRecord p.1 i], st.nextId⟩) := by
        simp [submitStep, hp, hstrip]
      have hrec := ih hrest (i + 1)
        ⟨st.entries ++ [p.1], st.request_ids, st.results ++ [noCodeRecord p.1 i], st.nextId⟩
      simp only [List.map_cons, submitLoop, hstep, hrec]
      simp [expSubmits, expTriples, expPlaceholders, countCode, hstrip]
    · have hstep : submitStep st i (LineParse.ok p.1) =
          ([SEvent.submit st.nextId], .ok ⟨st.entries ++ [p.1],
            st.request_ids ++ [(st.nextId, i, p.2)], st.results, st.nextId + 1⟩) := by
        simp [submitStep, hp, hstrip]
      have hrec := ih hrest (i + 1)
        ⟨st.entries ++ [p.1], st.request_ids ++ [(st.nextId, i, p.2)], st.results,
          st.nextId + 1⟩
      simp only [List.map_cons, submitLoop, hstep, hrec]
      simp [expSubmits, expTriples, expPlaceholders, countCode, hstrip, Nat.add_assoc]

theorem zip_self_map {α β : Type} (g : α → β) :
    ∀ (l : List α), l.zip (l.map g) = l.map (fun a => (a, g a)) := by
  intro l
  induction l with
  | nil => rfl
  | cons a l ih => simp [List.zip_cons_cons, ih]

theorem collectLoop_characterization (f : Nat → Output) (allE : List Entry) :
    ∀ (codes : List (Entry × Str)) (i n : Nat),
    (∀ k, allE.get? (i + k) = (codes.get? k).map (·.1)) →
    collectLoop allE ((expTriples i n codes).map (fun t => (t, f t.1))) =
      .ok (expVerified f i n codes) := by
  intro codes
  induction codes with
  | nil => intro i n _; simp [expTriples, collectLoop, expVerified]
  | cons p rest ih =>
    intro i n hget
    have hshift : ∀ k, allE.get? (i + 1 + k) = (rest.get? k).map (·.1) := by
      intro k
      have h := hget (k + 1)
      rwa [show i + (k + 1) = i + 1 + k by omega] at h
    by_cases hstrip : pyStrip p.2 = []
    · simp only [expTriples, expVerified, hstrip, if_pos]
      exact ih (i + 1) n hshift
    · have h0 : allE.get? i = some p.1 := by
        have h := hget 0
        simpa using h
      have ht : expTriples i n (p :: rest) =
          (n, i, p.2) :: expTriples (i + 1) (n + 1) rest := by
        simp [expTriples, hstrip]
      have hv : expVerified f i n (p :: rest) =
          verifiedRecord p.1 i p.2 (f n) :: expVerified f (i + 1) (n + 1) rest := by
        simp [expVerified, hstrip]
      rw [ht, hv, List.map_cons]
      rw [show collectLoop allE (((n, i, p.2), f n) ::
          (expTriples (i + 1) (n + 1) rest).map (fun t => (t, f t.1))) =
          (match allE.get? i with
          | none => .error "list index out of range".data
          | some e => (collectLoop allE
              ((expTriples (i + 1) (n + 1) rest).map (fun t => (t, f t.1)))).map
              (verifiedRecord e i p.2 (f n) :: ·)) from rfl]
      rw [h0, ih (i + 1) (n + 1) hshift]
      rfl

theorem expVerified_nil_of_expTriples_nil (f : Nat → Output) :
    ∀ (codes : List (Entry × Str)) (i n : Nat),
    expTriples i n codes = [] → expVerified f i n codes = [] := by
  intro codes
  induction codes with
  | nil => intro i n _; rfl
  | cons p rest ih =>
    intro i n h
    by_cases hstrip : pyStrip p.2 = []
    · simp only [expTriples, hstrip, if_pos] at h
      simp only [expVerified, hstrip, if_pos]
      exact ih (i + 1) n h
    · simp [expTriples, hstrip] at h

/-- Claim C4 amended: on a batch whose lines all parse and whose extractions all
succeed, the run returns one record per entry: the placeholder records of
the codeless entries first, in input order, followed by the verified
records of the submitted entries, in input order; each verified record is
built from its own originating entry, its own line index, its own code, and
the service outcome of its own request handle, so the pairing of outcomes
to entries is exact even though the list interleaving of the input is not
preserved; completion order cannot influence it because the one blocking
retrieval returns outcomes positionally per handle. -/
theorem process_pairing_and_grouping (f : Nat → Output) (codes : List (Entry × Str))
    (hc : ∀ p ∈ codes, extract_lean_code p.1.response p.1.formal_statement = .ok p.2) :
    (process_jsonl_file ⟨f, none⟩ (codes.map (fun p => LineParse.ok p.1)) none).result =
      .ok (expPlaceholders 0 codes ++ expVerified f 0 0 codes) := by
  unfold process_jsonl_file selectLines
  have hloop := submitLoop_characterization codes hc 0 ⟨[], [], [], 0⟩
  simp only [List.nil_append, Nat.zero_add] at hloop
  by_cases hreq : expTriples 0 0 codes = []
  · have haw : awaitPhase ⟨f, none⟩
        ⟨codes.map (·.1), expTriples 0 0 codes, expPlaceholders 0 codes, countCode codes⟩ =
        ([], .ok (expPlaceholders 0 codes)) := by
      simp [awaitPhase, hreq]
    rw [processLines_eq_ok ⟨f, none⟩ _ _ _ _ _ hloop haw]
    simp [expVerified_nil_of_expTriples_nil f codes 0 0 hreq]
  · have hcoll := collectLoop_characterization f (codes.map (·.1)) codes 0 0
      (fun k => by simp [List.getElem?_map, List.get?_eq_getElem?])
    have hzip : (expTriples 0 0 codes).zip
        ((expTriples 0 0 codes).map (f ∘ fun x => x.1)) =
        (expTriples 0 0 codes).map (fun t => (t, f t.1)) := by
      simpa [Function.comp] using zip_self_map (f ∘ fun x => x.1) (expTriples 0 0 codes)
    have haw : awaitPhase ⟨f, none⟩
        ⟨codes.map (·.1), expTriples 0 0 codes, expPlaceholders 0 codes, countCode codes⟩ =
        ([SEvent.awaitCall],
         .ok (expPlaceholders 0 codes ++ expVerified f 0 0 codes)) := by
      simp [awaitPhase, Sched.awaitAll, hreq, hzip, hcoll, Except.map]
    rw [processLines_eq_ok ⟨f, none⟩ _ _ _ _ _ hloop haw]

/-- Witness for C4 at the two-entry batch: the codeless second entry's
placeholder record precedes the code-bearing first entry's verified
record, each carrying its own entry's data. -/
theorem process_pairing_witness :
    (∀ p ∈ codesPair,
      extract_lean_code p.1.response p.1.formal_statement = .ok p.2) ∧
    (process_jsonl_file ⟨fun _ => outputA, none⟩
        (codesPair.map (fun p => LineParse.ok p.1)) none).result =
      .ok (expPlaceholders 0 codesPair ++ expVerified (fun _ => outputA) 0 0 codesPair) :=
  ⟨by decide, process_pairing_and_grouping (fun _ => outputA) codesPair (by decide)⟩
